import Mathlib

/-!
Verification development for gophycutter (src/main.go), a project-scaffolding
generator: a configuration document provides defaults, user input is coerced
against the default's runtime type, and a template tree is walked, rendering
paths (leniently) and file contents (strictly) against the render context.

The embedding models:
* the dynamic (interface) values flowing through the program (`GoValue`),
* the fragment of Go text/template exercised by the program: literal text
  and dot-path field actions, with text/template's default missingkey
  behaviour (a missing map key prints as the no-value marker and is not an
  execution error, while field access through a non-map or nil value is),
* `renderTemplate` (lenient), `processFile` (strict content render plus a
  second lenient render of the output path), `generateFiles` (the walk,
  modelled as the list of filesystem operations it performs in order,
  together with the error that aborts it, if any),
* `convertToType` and the prompt loop of `main`.

Filesystem and OS-level failures (unreadable entries, failing writes) are
outside the embedding; the walk model records the operations requested.
-/

namespace GC

/-- Dynamic values: the JSON decoder produces strings, numbers (float64),
booleans, objects, arrays and null; `convertToType` may additionally produce
int values. Numbers are modelled as rationals (the decimal fragment of
float64 arithmetic-free flow in this program). -/
inductive GoValue where
  | str : String → GoValue
  | int : Int → GoValue
  | float : Rat → GoValue
  | bool : Bool → GoValue
  | obj : List (String × GoValue) → GoValue
  | arr : List GoValue → GoValue
  | null : GoValue

/-- The render context: map[string]interface from variable name to value. -/
abbrev Ctx := List (String × GoValue)

/-- Characters allowed in a field name of an action (letters, digits,
underscore), as in text/template field tokens. -/
def isIdentChar (c : Char) : Bool := c.isAlphanum || c = '_'

/-- Split the input at the first occurrence of the opening action delimiter
(two consecutive left braces): returns the literal text before it and, when
found, the remaining input after the delimiter. -/
def splitAtOpen : List Char → List Char × Option (List Char)
  | [] => ([], none)
  | [c] => ([c], none)
  | c :: d :: rest =>
    if c = '{' ∧ d = '{' then ([], some rest)
    else
      match splitAtOpen (d :: rest) with
      | (t, r) => (c :: t, r)

/-- Whether the opening action delimiter occurs anywhere in the input. -/
def hasOpen : List Char → Bool
  | [] => false
  | [_] => false
  | c :: d :: rest => if c = '{' ∧ d = '{' then true else hasOpen (d :: rest)

def skipSpaces : List Char → List Char
  | ' ' :: rest => skipSpaces rest
  | '\t' :: rest => skipSpaces rest
  | cs => cs

/-- Longest identifier-character run at the head of the input. -/
def readIdent : List Char → List Char × List Char
  | [] => ([], [])
  | c :: rest =>
    if isIdentChar c then
      match readIdent rest with
      | (i, r) => (c :: i, r)
    else ([], c :: rest)

/-- Read a chain of dot-separated field names (fuel bounds the recursion;
each step consumes at least the dot and one identifier character). -/
def readFields : Nat → List Char → List String × List Char
  | 0, cs => ([], cs)
  | fuel+1, '.' :: c :: rest =>
    if isIdentChar c then
      match readIdent rest with
      | (i, r) =>
        match readFields fuel r with
        | (fs, r2) => (String.mk (c :: i) :: fs, r2)
    else ([], '.' :: c :: rest)
  | _+1, cs => ([], cs)

/-- Parse the inside of an action after the opening delimiter: optional
spaces, a dot path (the bare dot or a chain of fields), optional spaces and
the closing delimiter. Anything else (for example a bare word, which
text/template takes for an undefined function) is a parse error, modelled
by returning none. Returns the field path and the input after the action. -/
def parseAction (cs : List Char) : Option (List String × List Char) :=
  match skipSpaces cs with
  | '.' :: rest =>
    match rest with
    | c :: _ =>
      if isIdentChar c then
        match readFields (cs.length + 1) ('.' :: rest) with
        | (fs, r) =>
          match skipSpaces r with
          | '}' :: '}' :: rest2 => some (fs, rest2)
          | _ => none
      else
        match skipSpaces rest with
        | '}' :: '}' :: rest2 => some ([], rest2)
        | _ => none
    | [] => none
  | _ => none

/-- A parsed template: literal text interleaved with field actions. -/
inductive Node where
  | text : String → Node
  | field : List String → Node
deriving DecidableEq

/-- Prepend a literal-text node when the text is nonempty. -/
def textCons (pre : List Char) (ns : List Node) : List Node :=
  if pre.isEmpty then ns else Node.text (String.mk pre) :: ns

/-- Parse a template into nodes. The fuel only bounds the recursion: every
recursive step consumes the two delimiter characters, so fuel equal to the
input length never runs out. -/
def parseNodes : Nat → List Char → Except String (List Node)
  | fuel, cs =>
    match splitAtOpen cs with
    | (pre, none) => Except.ok (textCons pre [])
    | (pre, some rest) =>
      match fuel with
      | 0 => Except.error ("template: out of fuel")
      | fuel' + 1 =>
        match parseAction rest with
        | none => Except.error ("template: parse error")
        | some (path, rest2) =>
          match parseNodes fuel' rest2 with
          | Except.error e => Except.error e
          | Except.ok ns => Except.ok (textCons pre (Node.field path :: ns))

/-- template.New("").Parse on the modelled fragment. -/
def parseGo (s : String) : Except String (List Node) :=
  parseNodes s.data.length s.data

def lookupKey : List (String × GoValue) → String → Option GoValue
  | [], _ => none
  | (k, v) :: rest, key => if k = key then some v else lookupKey rest key

/-- One field-access step of template execution on the value kinds produced
by JSON decoding: indexing a map with a missing key yields the invalid
value (later printed as the no-value marker, not an error — text/template's
default missingkey option), while field access on a non-map value or on nil
is an execution error. -/
def lookupField : GoValue → String → Except String (Option GoValue)
  | GoValue.obj m, f => Except.ok (lookupKey m f)
  | GoValue.null, f => Except.error ("nil pointer evaluating field " ++ f)
  | _, f => Except.error ("cannot evaluate field " ++ f)

/-- Evaluate a field path starting from a value; none is the invalid value
obtained from a missing map key, and a further field access on it fails. -/
def evalFields : Option GoValue → List String → Except String (Option GoValue)
  | v, [] => Except.ok v
  | none, f :: _ => Except.error ("nil pointer evaluating field " ++ f)
  | some cur, f :: rest =>
    match lookupField cur f with
    | Except.error e => Except.error e
    | Except.ok nxt => evalFields nxt rest

/-- Printing a value as the fmt verb for default formatting does. Compound
values are abbreviated (no claim exercises them). -/
def goShow : GoValue → String
  | GoValue.str s => s
  | GoValue.int n => toString n
  | GoValue.float q => toString q
  | GoValue.bool b => cond b ("true") ("false")
  | GoValue.null => ("<nil>")
  | GoValue.obj _ => ("map[...]")
  | GoValue.arr _ => ("[...]")

/-- Printing the result of a field evaluation; the invalid value obtained
from a missing map key prints as the no-value marker. -/
def printValue : Option GoValue → String
  | none => ("<no value>")
  | some v => goShow v

/-- Execute parsed nodes against the context (the dot starts at the context
map itself). Output is accumulated; the first failing action aborts. -/
def executeNodes (ctx : Ctx) : List Node → Except String String
  | [] => Except.ok ("")
  | Node.text s :: rest =>
    match executeNodes ctx rest with
    | Except.error e => Except.error e
    | Except.ok out => Except.ok (s ++ out)
  | Node.field fs :: rest =>
    match evalFields (some (GoValue.obj ctx)) fs with
    | Except.error e => Except.error e
    | Except.ok v =>
      match executeNodes ctx rest with
      | Except.error e => Except.error e
      | Except.ok out => Except.ok (printValue v ++ out)

/-- The two error kinds surfaced by the templating engine. -/
inductive TemplateError where
  | parseError : String → TemplateError
  | execError : String → TemplateError
deriving DecidableEq

/-- Parse and execute, propagating both error kinds (the strict render used
for file contents in processFile, main.go lines 102-110). -/
def strictRender (s : String) (ctx : Ctx) : Except TemplateError String :=
  match parseGo s with
  | Except.error e => Except.error (TemplateError.parseError e)
  | Except.ok ns =>
    match executeNodes ctx ns with
    | Except.error e => Except.error (TemplateError.execError e)
    | Except.ok out => Except.ok out

/-- renderTemplate, main.go lines 80-93: lenient rendering that falls back
to the literal input on a parse or execution error. -/
def renderTemplate (input : String) (ctx : Ctx) : String :=
  match parseGo input with
  | Except.error _ => input
  | Except.ok ns =>
    match executeNodes ctx ns with
    | Except.error _ => input
    | Except.ok out => out

/-- processFile, main.go lines 96-119: strict render of the contents, then
a second lenient render of the (already rendered and joined) output path,
then the write. Returns the destination path and the bytes written; read
and write failures are OS-level and outside the model. -/
def processFile (content : String) (outputPath : String) (ctx : Ctx) :
    Except TemplateError (String × String) :=
  match strictRender content ctx with
  | Except.error e => Except.error e
  | Except.ok rendered => Except.ok (renderTemplate outputPath ctx, rendered)

def skipWS : List Char → List Char
  | ' ' :: rest => skipWS rest
  | '\t' :: rest => skipWS rest
  | '\n' :: rest => skipWS rest
  | '\r' :: rest => skipWS rest
  | cs => cs

def digitsNat (cs : List Char) : Nat :=
  cs.foldl (fun acc c => acc * 10 + (c.toNat - 48)) 0

/-- Value of the longest leading digit run; none when there is no digit
(Sscan then fails and leaves the operand at its zero value). -/
def digitsVal (cs : List Char) : Option Nat :=
  let ds := cs.takeWhile Char.isDigit
  if ds.isEmpty then none
  else some (digitsNat ds)

/-- fmt.Sscan into an int operand: skip spaces, optional sign, leading
digit run (decimal fragment; trailing characters are unconsumed and
ignored, as Sscan succeeds after its single operand). -/
def scanInt (s : String) : Option Int :=
  match skipWS s.data with
  | '-' :: rest => (digitsVal rest).map (fun n => -(n : Int))
  | '+' :: rest => (digitsVal rest).map (fun n => (n : Int))
  | cs => (digitsVal cs).map (fun n => (n : Int))

/-- After a leading t or T: Sscan accepts a bare t, or the full word true
in any letter case; t followed by r but not the rest is an error. -/
def scanTrueTail : List Char → Option Bool
  | [] => some true
  | c :: rest =>
    if c = 'r' ∨ c = 'R' then
      match rest with
      | u :: e :: _ =>
        if (u = 'u' ∨ u = 'U') ∧ (e = 'e' ∨ e = 'E') then some true else none
      | _ => none
    else some true

/-- After a leading f or F: symmetric to scanTrueTail. -/
def scanFalseTail : List Char → Option Bool
  | [] => some false
  | c :: rest =>
    if c = 'a' ∨ c = 'A' then
      match rest with
      | l :: s :: e :: _ =>
        if (l = 'l' ∨ l = 'L') ∧ (s = 's' ∨ s = 'S') ∧ (e = 'e' ∨ e = 'E') then
          some false
        else none
      | _ => none
    else some false

/-- fmt.Sscan into a bool operand: accepts 0, 1, and the true and false
words as fmt's boolean scanner does. -/
def scanBool (s : String) : Option Bool :=
  match skipWS s.data with
  | '0' :: _ => some false
  | '1' :: _ => some true
  | 't' :: rest => scanTrueTail rest
  | 'T' :: rest => scanTrueTail rest
  | 'f' :: rest => scanFalseTail rest
  | 'F' :: rest => scanFalseTail rest
  | _ => none

/-- Magnitude of a decimal float literal: digits with an optional
fractional part (exponents, hex floats and infinities are not modelled;
none arise in this development). -/
def scanFloatMag (cs : List Char) : Option Rat :=
  let intDs := cs.takeWhile Char.isDigit
  let rest := cs.dropWhile Char.isDigit
  match rest with
  | '.' :: rest2 =>
    let fracDs := rest2.takeWhile Char.isDigit
    if intDs.isEmpty ∧ fracDs.isEmpty then none
    else
      some ((digitsNat intDs : Rat) + (digitsNat fracDs : Rat) / ((10 : Rat) ^ fracDs.length))
  | _ =>
    if intDs.isEmpty then none else some ((digitsNat intDs : Rat))

/-- fmt.Sscan into a float64 operand (decimal fragment). -/
def scanFloat (s : String) : Option Rat :=
  match skipWS s.data with
  | '-' :: rest => (scanFloatMag rest).map (fun q => -q)
  | '+' :: rest => (scanFloatMag rest).map (fun q => q)
  | cs => scanFloatMag cs

/-- convertToType, main.go lines 122-141: switch on the runtime type of the
default value; the Sscan calls leave their operand at the zero value when
parsing fails, and the default branch returns the raw string. -/
def convertToType (expectedType : GoValue) (value : String) : GoValue :=
  match expectedType with
  | GoValue.str _ => GoValue.str value
  | GoValue.int _ => GoValue.int ((scanInt value).getD 0)
  | GoValue.bool _ => GoValue.bool ((scanBool value).getD false)
  | GoValue.float _ => GoValue.float ((scanFloat value).getD 0)
  | _ => GoValue.str value

/-- The prompt loop of main, lines 197-203: every key is prompted once and
its default replaced by convertToType of that default and the raw input for
that key (the update is pointwise, so Go's randomized map iteration order
does not affect the result). -/
def updateContext (data : List (String × GoValue)) (inputs : String → String) :
    List (String × GoValue) :=
  data.map (fun kv => (kv.1, convertToType kv.2 (inputs kv.1)))

/-- A template entry: a filesystem node under the input root. Children of a
directory are listed in the walk's order (filepath.Walk visits names in
lexical order). -/
inductive Entry where
  | file : String → String → Entry
  | dir : String → List Entry → Entry

/-- A filesystem operation requested by the walk, in order. A write records
the basename of the source file it came from (bookkeeping only), the
destination path handed to the OS, and the bytes written. -/
inductive Op where
  | mkdirAll : String → Op
  | writeFile : String → String → String → Op
deriving DecidableEq

def Op.path : Op → String
  | Op.mkdirAll p => p
  | Op.writeFile _ dst _ => dst

/-- Join a relative path with a child name, as filepath.Walk produces
relative paths (the root itself is the dot path). -/
def joinRel (base name : String) : String :=
  if base = "." then name else base ++ "/" ++ name

/-- filepath.Join of the output root with a rendered relative path, for the
cases that arise here: joining with the dot or the empty string yields the
cleaned root (no further cleaning is modelled). -/
def joinOut (outDir rendered : String) : String :=
  if rendered = "." then outDir
  else if rendered = "" then outDir
  else outDir ++ "/" ++ rendered

/-- The walk body of generateFiles (main.go lines 44-69) over a list of
sibling entries: a dir named .git is skipped without descending; a dir is
mkdir-ed at the output root joined with the lenient render of its relative
path, then its children are visited, then the following siblings; a file
not named cookiecutter.json goes through processFile and a write; the first
error aborts, keeping the operations performed so far. The fuel only bounds
the recursion (each step consumes one unit; exhaustion returns the empty
suffix and never occurs at the fuel used by generateFiles). -/
def walkList : Nat → Ctx → String → String → List Entry → List Op × Option TemplateError
  | _, _, _, _, [] => ([], none)
  | 0, _, _, _, _ :: _ => ([], none)
  | fuel+1, ctx, outDir, rel, Entry.dir name children :: es =>
    if name = (".git") then walkList fuel ctx outDir rel es
    else
      match walkList fuel ctx outDir (joinRel rel name) children with
      | (cops, some e) =>
        (Op.mkdirAll (joinOut outDir (renderTemplate (joinRel rel name) ctx)) :: cops, some e)
      | (cops, none) =>
        match walkList fuel ctx outDir rel es with
        | (ops2, err2) =>
          (Op.mkdirAll (joinOut outDir (renderTemplate (joinRel rel name) ctx)) :: cops ++ ops2,
            err2)
  | fuel+1, ctx, outDir, rel, Entry.file name content :: es =>
    if name = ("cookiecutter.json") then walkList fuel ctx outDir rel es
    else
      match processFile content (joinOut outDir (renderTemplate (joinRel rel name) ctx)) ctx with
      | Except.error e => ([], some e)
      | Except.ok (dst, rendered) =>
        match walkList fuel ctx outDir rel es with
        | (ops2, err2) => (Op.writeFile name dst rendered :: ops2, err2)

/-- generateFiles, main.go lines 39-77: the output root is created first
(line 40), then the walk starts at the input root itself (relative path
dot), then descends. A root directory named .git is skipped entirely; a
root that is the configuration file contributes nothing. The fuel is a
modeling artifact with no source counterpart: it only bounds the recursion
of walkList, and any fuel at least the number of entries in the tree yields
the walk's complete behavior. -/
def generateFiles (fuel : Nat) (ctx : Ctx) (outDir : String) (root : Entry) :
    List Op × Option TemplateError :=
  let res :=
    match root with
    | Entry.dir name children =>
      if name = (".git") then ([], none)
      else
        match walkList fuel ctx outDir (".") children with
        | (cops, cerr) =>
          (Op.mkdirAll (joinOut outDir (renderTemplate (".") ctx)) :: cops, cerr)
    | Entry.file name content =>
      if name = ("cookiecutter.json") then ([], none)
      else
        match processFile content (joinOut outDir (renderTemplate (".") ctx)) ctx with
        | Except.error e => ([], some e)
        | Except.ok (dst, rendered) => ([Op.writeFile name dst rendered], none)
  (Op.mkdirAll outDir :: res.1, res.2)

/-- The non-skipped entries a complete walk visits, with their relative
paths, in walk order (same fuel discipline as walkList). -/
inductive Visit where
  | vdir : String → Visit
  | vfile : String → String → String → Visit
deriving DecidableEq

def visits : Nat → String → List Entry → List Visit
  | _, _, [] => []
  | 0, _, _ :: _ => []
  | fuel+1, rel, Entry.dir name children :: es =>
    if name = (".git") then visits fuel rel es
    else
      Visit.vdir (joinRel rel name) ::
        (visits fuel (joinRel rel name) children ++ visits fuel rel es)
  | fuel+1, rel, Entry.file name content :: es =>
    if name = ("cookiecutter.json") then visits fuel rel es
    else Visit.vfile (joinRel rel name) name content :: visits fuel rel es

/-- The single operation the walk performs for a visited entry: a directory
is created at the root joined with the lenient render of its relative path;
a file is written at the lenient render of the already joined and rendered
path (the second render performed by processFile), with its strict-rendered
contents. -/
def expectedOp (ctx : Ctx) (outDir : String) : Visit → Op
  | Visit.vdir r => Op.mkdirAll (joinOut outDir (renderTemplate r ctx))
  | Visit.vfile r name content =>
    Op.writeFile name (renderTemplate (joinOut outDir (renderTemplate r ctx)) ctx)
      ((strictRender content ctx).toOption.getD (""))

/-- The path component before the last separator (empty when there is no
separator), as filepath.Dir behaves on the paths arising here. -/
def parentDir (s : String) : String :=
  match s.data.reverse.dropWhile (fun c => c ≠ '/') with
  | _ :: rest => String.mk rest.reverse
  | [] => ("")

/-- The path component after the last separator. -/
def baseName (s : String) : String :=
  String.mk (s.data.reverse.takeWhile (fun c => c ≠ '/')).reverse

/-- No left brace occurs in the string: such a string contains no action
delimiter and renders to itself. -/
def noLB (s : String) : Bool :=
  s.data.all (fun c => !(c = '{'))

/-- A name that is a plain path segment: no action delimiter material, no
separator, nonempty and not the dot entry. -/
def cleanName (n : String) : Bool :=
  n.data.all (fun c => !(c = '{') && !(c = '/')) && !(n = ("")) && !(n = ("."))

/-- All names in the tree are clean (same fuel discipline as walkList). -/
def cleanListB : Nat → List Entry → Bool
  | _, [] => true
  | 0, _ :: _ => true
  | fuel+1, Entry.dir name children :: es =>
    cleanName name && cleanListB fuel children && cleanListB fuel es
  | fuel+1, Entry.file name _ :: es => cleanName name && cleanListB fuel es

/-- The directories created by a list of operations, newest first, on top
of the already created ones. -/
def createdAfter (created : List String) : List Op → List String
  | [] => created
  | Op.mkdirAll p :: rest => createdAfter (p :: created) rest
  | Op.writeFile _ _ _ :: rest => createdAfter created rest

/-- Every write in the list goes to a destination whose containing
directory was created earlier (by an operation in the list or in the
initially created set). -/
def writesCovered (created : List String) : List Op → Bool
  | [] => true
  | Op.mkdirAll p :: rest => writesCovered (p :: created) rest
  | Op.writeFile _ dst _ :: rest =>
    (if parentDir dst ∈ created then true else false) && writesCovered created rest

/-! ### Basic string and parser lemmas -/

theorem string_data_append (s t : String) : (s ++ t).data = s.data ++ t.data := by
  cases s
  cases t
  rfl

theorem string_mk_data (s : String) : String.mk s.data = s := by
  cases s
  rfl

theorem string_append_empty (s : String) : s ++ ("") = s := by
  cases s with
  | mk l => exact congrArg String.mk (List.append_nil l)

theorem splitAtOpen_of_not_hasOpen :
    ∀ cs : List Char, hasOpen cs = false → splitAtOpen cs = (cs, none) := by
  intro cs
  induction cs with
  | nil => intro _; rfl
  | cons c rest ih =>
    cases rest with
    | nil => intro _; rfl
    | cons d rest2 =>
      intro h
      rw [hasOpen] at h
      rw [splitAtOpen]
      by_cases hcd : c = '{' ∧ d = '{'
      · rw [if_pos hcd] at h
        exact absurd h (by simp)
      · rw [if_neg hcd] at h
        rw [if_neg hcd, ih h]

theorem parseGo_of_not_hasOpen (s : String) (h : hasOpen s.data = false) :
    parseGo s = Except.ok (textCons s.data []) := by
  rw [parseGo, parseNodes, splitAtOpen_of_not_hasOpen _ h]

theorem strictRender_of_not_hasOpen (s : String) (ctx : Ctx)
    (h : hasOpen s.data = false) : strictRender s ctx = Except.ok s := by
  rw [strictRender, parseGo_of_not_hasOpen s h]
  by_cases he : s.data.isEmpty
  · have hnil : s.data = [] := by
      cases hl : s.data with
      | nil => rfl
      | cons a l => rw [hl] at he; simp [List.isEmpty] at he
    have hs : s = String.mk [] := by
      rw [← hnil]
    subst hs
    rfl
  · rw [textCons, if_neg he, string_mk_data]
    show (match executeNodes ctx [Node.text s] with
      | Except.error e => Except.error (TemplateError.execError e)
      | Except.ok out => Except.ok out) = Except.ok s
    have hex : executeNodes ctx [Node.text s] = Except.ok (s ++ ("")) := rfl
    rw [hex, string_append_empty]

theorem renderTemplate_eq_strict (s : String) (ctx : Ctx) :
    renderTemplate s ctx =
      (match strictRender s ctx with
        | Except.ok o => o
        | Except.error _ => s) := by
  unfold renderTemplate strictRender
  cases hp : parseGo s with
  | error e => rfl
  | ok ns =>
    cases he : executeNodes ctx ns with
    | error e => simp [he]
    | ok o => simp [he]

theorem renderTemplate_of_error (s : String) (ctx : Ctx) (e : TemplateError)
    (h : strictRender s ctx = Except.error e) : renderTemplate s ctx = s := by
  rw [renderTemplate_eq_strict, h]

theorem renderTemplate_of_ok (s : String) (ctx : Ctx) (o : String)
    (h : strictRender s ctx = Except.ok o) : renderTemplate s ctx = o := by
  rw [renderTemplate_eq_strict, h]

theorem hasOpen_of_noLB :
    ∀ cs : List Char, cs.all (fun c => !(c = '{')) = true → hasOpen cs = false := by
  intro cs
  induction cs with
  | nil => intro _; rfl
  | cons c rest ih =>
    cases rest with
    | nil => intro _; rfl
    | cons d rest2 =>
      intro h
      simp only [List.all_cons, Bool.and_eq_true, Bool.not_eq_true', decide_eq_false_iff_not] at h
      rw [hasOpen, if_neg (fun hcd => h.1 hcd.1)]
      apply ih
      simp only [List.all_cons, Bool.and_eq_true, Bool.not_eq_true', decide_eq_false_iff_not]
      exact h.2

theorem renderTemplate_id_of_noLB (s : String) (ctx : Ctx) (h : noLB s = true) :
    renderTemplate s ctx = s := by
  have ho : hasOpen s.data = false := hasOpen_of_noLB s.data h
  exact renderTemplate_of_ok s ctx s (strictRender_of_not_hasOpen s ctx ho)

/-! ### processFile and walk unfolding lemmas -/

theorem processFile_of_error (content out : String) (ctx : Ctx) (e : TemplateError)
    (h : strictRender content ctx = Except.error e) :
    processFile content out ctx = Except.error e := by
  rw [processFile, h]

theorem processFile_of_ok (content out : String) (ctx : Ctx) (r : String)
    (h : strictRender content ctx = Except.ok r) :
    processFile content out ctx = Except.ok (renderTemplate out ctx, r) := by
  rw [processFile, h]

theorem walkList_nil (fuel : Nat) (ctx : Ctx) (outDir rel : String) :
    walkList fuel ctx outDir rel [] = ([], none) := by
  cases fuel <;> rfl

theorem walkList_cons_git (fuel : Nat) (ctx : Ctx) (outDir rel : String)
    (children : List Entry) (es : List Entry) :
    walkList (fuel+1) ctx outDir rel (Entry.dir (".git") children :: es) =
      walkList fuel ctx outDir rel es := by
  simp [walkList]

theorem walkList_cons_config (fuel : Nat) (ctx : Ctx) (outDir rel : String)
    (content : String) (es : List Entry) :
    walkList (fuel+1) ctx outDir rel (Entry.file ("cookiecutter.json") content :: es) =
      walkList fuel ctx outDir rel es := by
  simp [walkList]

theorem walkList_cons_dir (fuel : Nat) (ctx : Ctx) (outDir rel name : String)
    (children : List Entry) (es : List Entry) (h : ¬(name = (".git"))) :
    walkList (fuel+1) ctx outDir rel (Entry.dir name children :: es) =
      (match walkList fuel ctx outDir (joinRel rel name) children with
        | (cops, some e) =>
          (Op.mkdirAll (joinOut outDir (renderTemplate (joinRel rel name) ctx)) :: cops, some e)
        | (cops, none) =>
          match walkList fuel ctx outDir rel es with
          | (ops2, err2) =>
            (Op.mkdirAll (joinOut outDir (renderTemplate (joinRel rel name) ctx)) :: cops ++ ops2,
              err2)) := by
  rw [walkList, if_neg h]

theorem walkList_cons_file (fuel : Nat) (ctx : Ctx) (outDir rel name content : String)
    (es : List Entry) (h : ¬(name = ("cookiecutter.json"))) :
    walkList (fuel+1) ctx outDir rel (Entry.file name content :: es) =
      (match processFile content (joinOut outDir (renderTemplate (joinRel rel name) ctx)) ctx with
        | Except.error e => ([], some e)
        | Except.ok (dst, rendered) =>
          match walkList fuel ctx outDir rel es with
          | (ops2, err2) => (Op.writeFile name dst rendered :: ops2, err2)) := by
  rw [walkList, if_neg h]

/-- C7: for every input tree and every file whose content rendering fails,
the walk aborts with that file's error: the operations performed for the
entries before it in traversal order are exactly those of walking the
prefix alone (already-written files remain, untouched), and the entries
after it contribute nothing (they are never processed). Write failures are
OS-level and outside the embedding; they return through the same
error-propagation path (main.go lines 63-67 and 71-73). -/
theorem c7_abort_policy :
    ∀ (l1 : List Entry) (fuel : Nat) (l2 : List Entry) (n c : String) (ctx : Ctx)
      (outDir rel : String) (ops1 : List Op) (e : TemplateError),
      l1.length < fuel →
      walkList fuel ctx outDir rel l1 = (ops1, none) →
      ¬(n = ("cookiecutter.json")) →
      strictRender c ctx = Except.error e →
      walkList fuel ctx outDir rel (l1 ++ Entry.file n c :: l2) = (ops1, some e) := by
  intro l1
  induction l1 with
  | nil =>
    intro fuel l2 n c ctx outDir rel ops1 e hlen h1 hn he
    obtain ⟨f, rfl⟩ : ∃ f, fuel = f + 1 := ⟨fuel - 1, by omega⟩
    rw [walkList_nil] at h1
    injection h1 with hA hB
    subst hA
    rw [List.nil_append, walkList_cons_file _ _ _ _ _ _ _ hn,
      processFile_of_error _ _ _ _ he]
  | cons e0 l1x ih =>
    intro fuel l2 n c ctx outDir rel ops1 e hlen h1 hn he
    obtain ⟨f, rfl⟩ : ∃ f, fuel = f + 1 := ⟨fuel - 1, by omega⟩
    have hlen2 : l1x.length < f := by
      simp only [List.length_cons] at hlen
      omega
    cases e0 with
    | dir name children =>
      by_cases hg : name = (".git")
      · subst hg
        rw [walkList_cons_git] at h1
        rw [List.cons_append, walkList_cons_git]
        exact ih f l2 n c ctx outDir rel ops1 e hlen2 h1 hn he
      · rw [walkList_cons_dir _ _ _ _ _ _ _ hg] at h1
        rw [List.cons_append, walkList_cons_dir _ _ _ _ _ _ _ hg]
        cases hch : walkList f ctx outDir (joinRel rel name) children with
        | mk cops cerr =>
          rw [hch] at h1
          cases cerr with
          | some e2 => simp at h1
          | none =>
            cases hes : walkList f ctx outDir rel l1x with
            | mk ops2 err2 =>
              rw [hes] at h1
              injection h1 with hA hB
              subst hB
              subst hA
              rw [ih f l2 n c ctx outDir rel ops2 e hlen2 hes hn he]
    | file name content =>
      by_cases hcfg : name = ("cookiecutter.json")
      · subst hcfg
        rw [walkList_cons_config] at h1
        rw [List.cons_append, walkList_cons_config]
        exact ih f l2 n c ctx outDir rel ops1 e hlen2 h1 hn he
      · rw [walkList_cons_file _ _ _ _ _ _ _ hcfg] at h1
        rw [List.cons_append, walkList_cons_file _ _ _ _ _ _ _ hcfg]
        cases hpf : processFile content
            (joinOut outDir (renderTemplate (joinRel rel name) ctx)) ctx with
        | error e2 =>
          rw [hpf] at h1
          simp at h1
        | ok pr =>
          cases pr with
          | mk dst rendered =>
            rw [hpf] at h1
            cases hes : walkList f ctx outDir rel l1x with
            | mk ops2 err2 =>
              rw [hes] at h1
              injection h1 with hA hB
              subst hB
              subst hA
              rw [ih f l2 n c ctx outDir rel ops2 e hlen2 hes hn he]

/-- Witness for C7: with a prefix of one good file, a failing file and a
following sibling, the walk keeps exactly the prefix write and aborts with
the failing file's parse error; the following sibling is never processed. -/
theorem c7_abort_policy_witness :
    walkList 5 [] ("out") (".")
        [Entry.file ("a") ("ok1"),
         Entry.file ("bad") ("\x7b\x7bnope\x7d\x7d"),
         Entry.file ("c") ("ok2")] =
      ([Op.writeFile ("a") ("out/a") ("ok1")],
        some (TemplateError.parseError ("template: parse error"))) := by
  have h := c7_abort_policy [Entry.file ("a") ("ok1")] 5 [Entry.file ("c") ("ok2")]
    ("bad") ("\x7b\x7bnope\x7d\x7d") [] ("out") (".")
    [Op.writeFile ("a") ("out/a") ("ok1")]
    (TemplateError.parseError ("template: parse error"))
    (by decide) (by rfl) (by decide) (by rfl)
  exact h

/-- C5: lenient path rendering: whenever rendering a path string raises any
template error (parse or execution), renderTemplate returns the literal
unrendered input string (main.go lines 83-84 and 89-90), and the traversal
continues instead of aborting: a directory whose name renders with an error
is still created under its literal name, and its children and later
siblings are still walked (the walk's result is exactly the children's
walk, prefixed by that directory's creation). -/
theorem c5_lenient_path_fallback (s : String) (ctx : Ctx) (e : TemplateError)
    (h : strictRender s ctx = Except.error e) :
    renderTemplate s ctx = s ∧
      ∀ (fuel : Nat) (outDir : String) (children : List Entry),
        ¬(s = (".git")) →
        walkList (fuel+1) ctx outDir (".") [Entry.dir s children] =
          (Op.mkdirAll (joinOut outDir s) :: (walkList fuel ctx outDir s children).1,
            (walkList fuel ctx outDir s children).2) := by
  have hr : renderTemplate s ctx = s := renderTemplate_of_error s ctx e h
  refine ⟨hr, ?_⟩
  intro fuel outDir children hs
  rw [walkList_cons_dir _ _ _ _ _ _ _ hs]
  have hrel : joinRel (".") s = s := by rw [joinRel, if_pos rfl]
  rw [hrel, hr]
  cases hch : walkList fuel ctx outDir s children with
  | mk cops cerr =>
    cases cerr with
    | some e2 => rfl
    | none =>
      rw [walkList_nil]
      simp

/-- Witness for C5: a path whose template is a parse error (a bare word is
an undefined function) falls back to the literal text, and the directory's
child is still written beneath the literal name. -/
theorem c5_lenient_path_fallback_witness :
    renderTemplate ("\x7b\x7bcookiecutter.x\x7d\x7d") [] = ("\x7b\x7bcookiecutter.x\x7d\x7d") ∧
      walkList (3+1) [] ("out") (".")
          [Entry.dir ("\x7b\x7bcookiecutter.x\x7d\x7d") [Entry.file ("a") ("hi")]] =
        ([Op.mkdirAll ("out/\x7b\x7bcookiecutter.x\x7d\x7d"),
          Op.writeFile ("a") ("out/\x7b\x7bcookiecutter.x\x7d\x7d/a") ("hi")], none) := by
  have h := c5_lenient_path_fallback ("\x7b\x7bcookiecutter.x\x7d\x7d") []
    (TemplateError.parseError ("template: parse error")) (by rfl)
  refine ⟨h.1, ?_⟩
  rw [h.2 3 ("out") [Entry.file ("a") ("hi")] (by decide)]
  rfl

/-- C2 counterexample: a file content referencing a key absent from the
context map renders, under the strict content path, to the no-value marker
with no error at all: processFile succeeds, the file is written with the
marker as its contents, and the walk completes without aborting. The claim
that such a reference fails with a typed execution error is false of the
code, because text/template's default missingkey option substitutes the
marker for a missing map key. -/
theorem c2_strict_error_counterexample :
    strictRender ("\x7b\x7b.cookiecutter.missing\x7d\x7d")
        [(("cookiecutter"), GoValue.obj [])] = Except.ok ("<no value>") ∧
      processFile ("\x7b\x7b.cookiecutter.missing\x7d\x7d") ("out/f.txt")
          [(("cookiecutter"), GoValue.obj [])] =
        Except.ok (("out/f.txt"), ("<no value>")) ∧
      walkList 3 [(("cookiecutter"), GoValue.obj [])] ("out") (".")
          [Entry.file ("f.txt") ("\x7b\x7b.cookiecutter.missing\x7d\x7d")] =
        ([Op.writeFile ("f.txt") ("out/f.txt") ("<no value>")], none) :=
  ⟨rfl, rfl, rfl⟩

/-- C2 amended: for every file whose strict content render does fail (a
template parse error, or an execution error such as field access through a
non-map value or through a missing value), processFile returns that typed
error unchanged and the walk aborts with it; a reference whose lookup is
merely a missing map key is not such a failure. -/
theorem c2_strict_error_aborts (content outPath : String) (ctx : Ctx) (e : TemplateError)
    (n outDir rel : String) (fuel : Nat)
    (hr : strictRender content ctx = Except.error e)
    (hn : ¬(n = ("cookiecutter.json"))) :
    processFile content outPath ctx = Except.error e ∧
      walkList (fuel+1) ctx outDir rel [Entry.file n content] = ([], some e) := by
  refine ⟨processFile_of_error _ _ _ _ hr, ?_⟩
  rw [walkList_cons_file _ _ _ _ _ _ _ hn, processFile_of_error _ _ _ _ hr]

/-- Witness for C2 (amended): field access through a string value is a real
execution error, and it aborts the walk of the containing tree. -/
theorem c2_strict_error_aborts_witness :
    processFile ("\x7b\x7b.cookiecutter.a.b\x7d\x7d") ("out/g")
        [(("cookiecutter"), GoValue.obj [(("a"), GoValue.str ("x"))])] =
      Except.error (TemplateError.execError ("cannot evaluate field b")) ∧
      walkList (2+1) [(("cookiecutter"), GoValue.obj [(("a"), GoValue.str ("x"))])]
          ("out") (".") [Entry.file ("g") ("\x7b\x7b.cookiecutter.a.b\x7d\x7d")] =
        ([], some (TemplateError.execError ("cannot evaluate field b"))) :=
  c2_strict_error_aborts ("\x7b\x7b.cookiecutter.a.b\x7d\x7d") ("out/g")
    [(("cookiecutter"), GoValue.obj [(("a"), GoValue.str ("x"))])]
    (TemplateError.execError ("cannot evaluate field b"))
    ("g") ("out") (".") 2 (by rfl) (by decide)

/-- C9: rendering is a pure function of the template text and the render
context, so rendering the same text against the same context twice yields
byte-identical output. The only iteration the engine performs over the
context is keyed lookup (and fmt's map printing is key-sorted), so the
source render has no nondeterministic input; the embedding reflects this by
being a function. -/
theorem c9_render_deterministic :
    ∀ (s1 s2 : String) (c1 c2 : Ctx), s1 = s2 → c1 = c2 →
      renderTemplate s1 c1 = renderTemplate s2 c2 ∧
        strictRender s1 c1 = strictRender s2 c2 := by
  intro s1 s2 c1 c2 h1 h2
  subst h1
  subst h2
  exact ⟨rfl, rfl⟩

/-- Witness for C9 at a concrete template and context. -/
theorem c9_render_deterministic_witness :
    renderTemplate ("a \x7b\x7b.k\x7d\x7d") [(("k"), GoValue.str ("v"))] =
        renderTemplate ("a \x7b\x7b.k\x7d\x7d") [(("k"), GoValue.str ("v"))] ∧
      strictRender ("a \x7b\x7b.k\x7d\x7d") [(("k"), GoValue.str ("v"))] =
        strictRender ("a \x7b\x7b.k\x7d\x7d") [(("k"), GoValue.str ("v"))] :=
  c9_render_deterministic ("a \x7b\x7b.k\x7d\x7d") ("a \x7b\x7b.k\x7d\x7d")
    [(("k"), GoValue.str ("v"))] [(("k"), GoValue.str ("v"))] rfl rfl

/-- C10: an input string with no occurrence of the opening action delimiter
parses to pure literal text and renders to itself under both the lenient
and the strict render, so a template-free file is copied with contents
byte-identical to its input contents. -/
theorem c10_no_action_identity (s out : String) (ctx : Ctx)
    (h : hasOpen s.data = false) :
    renderTemplate s ctx = s ∧ strictRender s ctx = Except.ok s ∧
      processFile s out ctx = Except.ok (renderTemplate out ctx, s) := by
  have hs := strictRender_of_not_hasOpen s ctx h
  exact ⟨renderTemplate_of_ok s ctx s hs, hs, processFile_of_ok s out ctx s hs⟩

/-- Witness for C10 on concrete delimiter-free contents. -/
theorem c10_no_action_identity_witness :
    renderTemplate ("plain text") [(("cookiecutter"), GoValue.obj [])] = ("plain text") ∧
      strictRender ("plain text") [(("cookiecutter"), GoValue.obj [])] =
        Except.ok ("plain text") ∧
      processFile ("plain text") ("out/a") [(("cookiecutter"), GoValue.obj [])] =
        Except.ok
          (renderTemplate ("out/a") [(("cookiecutter"), GoValue.obj [])], ("plain text")) :=
  c10_no_action_identity ("plain text") ("out/a") [(("cookiecutter"), GoValue.obj [])]
    (by decide)

/-- C1: evaluation of the prompt loop at the failing input. The spec
requires that empty input at the prompt keep the default value unchanged
with its original type, but the loop stores convertToType(default, empty):
a string default becomes the empty string, a true boolean default becomes
false, and an int default becomes zero — the defaults are not preserved
(they survive only when they already equal the zero value, as a false
boolean does). -/
theorem c1_empty_input_overwrites_defaults :
    updateContext
        [(("project_name"), GoValue.str ("Demo")),
         (("flag"), GoValue.bool true),
         (("count"), GoValue.int 5)]
        (fun _ => ("")) =
      [(("project_name"), GoValue.str ("")),
       (("flag"), GoValue.bool false),
       (("count"), GoValue.int 0)] ∧
      GoValue.str ("") ≠ GoValue.str ("Demo") ∧
      GoValue.bool false ≠ GoValue.bool true ∧
      GoValue.int 0 ≠ GoValue.int 5 := by
  refine ⟨rfl, ?_, ?_, ?_⟩
  · intro h
    injection h with h2
    exact absurd h2 (by decide)
  · intro h
    injection h with h2
    exact absurd h2 (by decide)
  · intro h
    injection h with h2
    exact absurd h2 (by decide)

/-- C8: coercion of non-empty input against each default type: for int,
bool and float defaults the raw string is parsed as that type, and when the
scan fails the stored result is the zero value of the target type rather
than an error; an object, array or null default (no matching case in the
type switch) stores the raw string unmodified. -/
theorem c8_type_coercion (s : String) (d : Int) (b : Bool) (q : Rat)
    (m : List (String × GoValue)) (l : List GoValue) (hne : s ≠ ("")) :
    (∀ n, scanInt s = some n → convertToType (GoValue.int d) s = GoValue.int n) ∧
      (scanInt s = none → convertToType (GoValue.int d) s = GoValue.int 0) ∧
      (∀ bv, scanBool s = some bv → convertToType (GoValue.bool b) s = GoValue.bool bv) ∧
      (scanBool s = none → convertToType (GoValue.bool b) s = GoValue.bool false) ∧
      (∀ qv, scanFloat s = some qv → convertToType (GoValue.float q) s = GoValue.float qv) ∧
      (scanFloat s = none → convertToType (GoValue.float q) s = GoValue.float 0) ∧
      convertToType (GoValue.obj m) s = GoValue.str s ∧
      convertToType (GoValue.arr l) s = GoValue.str s ∧
      convertToType GoValue.null s = GoValue.str s := by
  refine ⟨?_, ?_, ?_, ?_, ?_, ?_, rfl, rfl, rfl⟩
  · intro n hn
    rw [convertToType, hn]
    rfl
  · intro hn
    rw [convertToType, hn]
    rfl
  · intro bv hb
    rw [convertToType, hb]
    rfl
  · intro hb
    rw [convertToType, hb]
    rfl
  · intro qv hq
    rw [convertToType, hq]
    rfl
  · intro hq
    rw [convertToType, hq]
    rfl

/-- Witness for C8: input 7 against a float (JSON number) default 5 stores
the numeric 7, and input against a bool default parses as bool. -/
theorem c8_type_coercion_witness :
    convertToType (GoValue.float 5) ("7") = GoValue.float 7 ∧
      convertToType (GoValue.bool false) ("true") = GoValue.bool true ∧
      convertToType (GoValue.bool false) ("banana") = GoValue.bool false ∧
      convertToType (GoValue.obj []) ("raw") = GoValue.str ("raw") := by
  have h7 := c8_type_coercion ("7") 0 false 5 [] [] (by decide)
  have ht := c8_type_coercion ("true") 0 false 0 [] [] (by decide)
  have hb := c8_type_coercion ("banana") 0 false 0 [] [] (by decide)
  have hr := c8_type_coercion ("raw") 0 false 0 [] [] (by decide)
  exact ⟨h7.2.2.2.2.1 7 rfl, ht.2.2.1 true rfl, hb.2.2.2.1 rfl, hr.2.2.2.2.2.2.1⟩

/-! ### Visit-list lemmas for the path-mirroring claim -/

theorem visits_nil (fuel : Nat) (rel : String) : visits fuel rel [] = [] := by
  cases fuel <;> rfl

theorem visits_cons_git (fuel : Nat) (rel : String) (children es : List Entry) :
    visits (fuel+1) rel (Entry.dir (".git") children :: es) = visits fuel rel es := by
  simp [visits]

theorem visits_cons_config (fuel : Nat) (rel content : String) (es : List Entry) :
    visits (fuel+1) rel (Entry.file ("cookiecutter.json") content :: es) =
      visits fuel rel es := by
  simp [visits]

theorem visits_cons_dir (fuel : Nat) (rel name : String) (children es : List Entry)
    (h : ¬(name = (".git"))) :
    visits (fuel+1) rel (Entry.dir name children :: es) =
      Visit.vdir (joinRel rel name) ::
        (visits fuel (joinRel rel name) children ++ visits fuel rel es) := by
  rw [visits, if_neg h]

theorem visits_cons_file (fuel : Nat) (rel name content : String) (es : List Entry)
    (h : ¬(name = ("cookiecutter.json"))) :
    visits (fuel+1) rel (Entry.file name content :: es) =
      Visit.vfile (joinRel rel name) name content :: visits fuel rel es := by
  rw [visits, if_neg h]

/-- C3 amended: whenever the walk completes without aborting, it performs
exactly one operation per non-skipped input entry, in traversal order: a
directory is created at the output root joined with the lenient render of
its relative path, but a file is written at the lenient render of the
already-joined-and-rendered path (processFile renders the output path a
second time, main.go line 112), with its strict-rendered contents. Distinct
entries may render to the same output path, in which case the set of output
paths is smaller than the set of non-skipped inputs (later writes
overwrite). -/
theorem c3_one_op_per_entry :
    ∀ (fuel : Nat) (entries : List Entry) (ctx : Ctx) (outDir rel : String),
      (walkList fuel ctx outDir rel entries).2 = none →
      (walkList fuel ctx outDir rel entries).1 =
        (visits fuel rel entries).map (expectedOp ctx outDir) := by
  intro fuel
  induction fuel with
  | zero =>
    intro entries ctx outDir rel h
    cases entries <;> rfl
  | succ f ih =>
    intro entries ctx outDir rel h
    cases entries with
    | nil => rw [walkList_nil, visits_nil]; rfl
    | cons e0 es =>
      cases e0 with
      | dir name children =>
        by_cases hg : name = (".git")
        · subst hg
          rw [walkList_cons_git] at h ⊢
          rw [visits_cons_git]
          exact ih es ctx outDir rel h
        · rw [walkList_cons_dir _ _ _ _ _ _ _ hg] at h ⊢
          rw [visits_cons_dir _ _ _ _ _ hg]
          cases hch : walkList f ctx outDir (joinRel rel name) children with
          | mk cops cerr =>
            rw [hch] at h
            cases cerr with
            | some e2 => simp at h
            | none =>
              cases hes : walkList f ctx outDir rel es with
              | mk ops2 err2 =>
                rw [hes] at h
                have herr : err2 = none := by simpa using h
                subst herr
                have hc : cops =
                    List.map (expectedOp ctx outDir) (visits f (joinRel rel name) children) := by
                  have hx := ih children ctx outDir (joinRel rel name) (by rw [hch])
                  rw [hch] at hx
                  simpa using hx
                have he2 : ops2 = List.map (expectedOp ctx outDir) (visits f rel es) := by
                  have hx := ih es ctx outDir rel (by rw [hes])
                  rw [hes] at hx
                  simpa using hx
                subst hc
                subst he2
                simp [expectedOp, List.map_append]
      | file name content =>
        by_cases hcfg : name = ("cookiecutter.json")
        · subst hcfg
          rw [walkList_cons_config] at h ⊢
          rw [visits_cons_config]
          exact ih es ctx outDir rel h
        · rw [walkList_cons_file _ _ _ _ _ _ _ hcfg] at h ⊢
          rw [visits_cons_file _ _ _ _ _ hcfg]
          cases hsr : strictRender content ctx with
          | error e2 =>
            rw [processFile_of_error _ _ _ _ hsr] at h
            simp at h
          | ok r =>
            rw [processFile_of_ok _ _ _ _ hsr] at h ⊢
            cases hes : walkList f ctx outDir rel es with
            | mk ops2 err2 =>
              rw [hes] at h
              have herr : err2 = none := by simpa using h
              subst herr
              have he2 : ops2 = List.map (expectedOp ctx outDir) (visits f rel es) := by
                have hx := ih es ctx outDir rel (by rw [hes])
                rw [hes] at hx
                simpa using hx
              subst he2
              simp [expectedOp, hsr, Except.toOption]

/-- Witness for C3 (amended) on a concrete aborting-free tree. -/
theorem c3_one_op_per_entry_witness :
    (walkList 4 [(("cookiecutter"), GoValue.obj [(("n"), GoValue.str ("demo"))])]
        ("out") (".")
        [Entry.dir ("d") [Entry.file ("a") ("hello")],
         Entry.file ("cookiecutter.json") ("skipped")]).1 =
      (visits 4 (".")
        [Entry.dir ("d") [Entry.file ("a") ("hello")],
         Entry.file ("cookiecutter.json") ("skipped")]).map
        (expectedOp [(("cookiecutter"), GoValue.obj [(("n"), GoValue.str ("demo"))])]
          ("out")) :=
  c3_one_op_per_entry 4
    [Entry.dir ("d") [Entry.file ("a") ("hello")],
     Entry.file ("cookiecutter.json") ("skipped")]
    [(("cookiecutter"), GoValue.obj [(("n"), GoValue.str ("demo"))])]
    ("out") (".") (by rfl)

/-- C3 counterexample: with a context in which one value itself contains an
action and two entries that render to the same path, the walk (i) writes a
file at the twice-rendered path, which differs from the output root joined
with the lenient-rendered relative input path — no output entry has that
singly-rendered path at all — and (ii) maps two distinct non-skipped input
entries onto one output path, so the set of output paths has omissions
relative to the filtered input set. -/
theorem c3_path_mirroring_counterexample :
    generateFiles 20
        [(("cookiecutter"), GoValue.obj
          [(("x"), GoValue.str ("\x7b\x7b.cookiecutter.y\x7d\x7d")),
           (("y"), GoValue.str ("Z")),
           (("q"), GoValue.str ("Z"))])]
        ("out")
        (Entry.dir ("tpl")
          [Entry.file ("Z") ("hello"),
           Entry.file ("\x7b\x7b.cookiecutter.q\x7d\x7d") ("hi"),
           Entry.file ("\x7b\x7b.cookiecutter.x\x7d\x7d") ("ho")]) =
      ([Op.mkdirAll ("out"), Op.mkdirAll ("out"),
        Op.writeFile ("Z") ("out/Z") ("hello"),
        Op.writeFile ("\x7b\x7b.cookiecutter.q\x7d\x7d") ("out/Z") ("hi"),
        Op.writeFile ("\x7b\x7b.cookiecutter.x\x7d\x7d") ("out/Z") ("ho")], none) ∧
      joinOut ("out")
          (renderTemplate ("\x7b\x7b.cookiecutter.x\x7d\x7d")
            [(("cookiecutter"), GoValue.obj
              [(("x"), GoValue.str ("\x7b\x7b.cookiecutter.y\x7d\x7d")),
               (("y"), GoValue.str ("Z")),
               (("q"), GoValue.str ("Z"))])]) =
        ("out/\x7b\x7b.cookiecutter.y\x7d\x7d") ∧
      ("out/\x7b\x7b.cookiecutter.y\x7d\x7d") ∉
        ((generateFiles 20
          [(("cookiecutter"), GoValue.obj
            [(("x"), GoValue.str ("\x7b\x7b.cookiecutter.y\x7d\x7d")),
             (("y"), GoValue.str ("Z")),
             (("q"), GoValue.str ("Z"))])]
          ("out")
          (Entry.dir ("tpl")
            [Entry.file ("Z") ("hello"),
             Entry.file ("\x7b\x7b.cookiecutter.q\x7d\x7d") ("hi"),
             Entry.file ("\x7b\x7b.cookiecutter.x\x7d\x7d") ("ho")])).1.map Op.path) := by
  refine ⟨rfl, rfl, ?_⟩
  decide

/-- C4 counterexample: the configuration-file check applies only to files
(main.go line 63 is in the non-directory branch), so an input directory
named cookiecutter.json is created in the output tree: the run produces an
output entry whose basename is the configuration document's basename. -/
theorem c4_exclusion_counterexample :
    generateFiles 5 [] ("out") (Entry.dir ("tpl") [Entry.dir ("cookiecutter.json") []]) =
      ([Op.mkdirAll ("out"), Op.mkdirAll ("out"),
        Op.mkdirAll ("out/cookiecutter.json")], none) ∧
      baseName ("out/cookiecutter.json") = ("cookiecutter.json") :=
  ⟨rfl, rfl⟩

/-- C4 amended: a directory named .git is skipped without descending and
contributes no output operation at all, and no write ever originates from a
file whose (input) basename is the configuration document's basename;
however an output entry may still bear that basename, when an input
directory carries it (or a rendered path produces it). -/
theorem c4_exclusions_amended :
    (∀ (fuel : Nat) (ctx : Ctx) (outDir rel : String) (children es : List Entry),
      walkList (fuel+1) ctx outDir rel (Entry.dir (".git") children :: es) =
        walkList fuel ctx outDir rel es) ∧
      (∀ (fuel : Nat) (entries : List Entry) (ctx : Ctx) (outDir rel src dst c : String),
        Op.writeFile src dst c ∈ (walkList fuel ctx outDir rel entries).1 →
        ¬(src = ("cookiecutter.json"))) := by
  constructor
  · intro fuel ctx outDir rel children es
    exact walkList_cons_git fuel ctx outDir rel children es
  · intro fuel
    induction fuel with
    | zero =>
      intro entries ctx outDir rel src dst c hmem
      cases entries with
      | nil => rw [walkList_nil] at hmem; simp at hmem
      | cons e es => simp [walkList] at hmem
    | succ f ih =>
      intro entries ctx outDir rel src dst c hmem
      cases entries with
      | nil => rw [walkList_nil] at hmem; simp at hmem
      | cons e0 es =>
        cases e0 with
        | dir name children =>
          by_cases hg : name = (".git")
          · subst hg
            rw [walkList_cons_git] at hmem
            exact ih es ctx outDir rel src dst c hmem
          · rw [walkList_cons_dir _ _ _ _ _ _ _ hg] at hmem
            cases hch : walkList f ctx outDir (joinRel rel name) children with
            | mk cops cerr =>
              rw [hch] at hmem
              cases cerr with
              | some e2 =>
                have hmem2 : Op.writeFile src dst c ∈
                    Op.mkdirAll (joinOut outDir (renderTemplate (joinRel rel name) ctx)) ::
                      cops := hmem
                rw [List.mem_cons] at hmem2
                rcases hmem2 with h0 | h0
                · exact absurd h0 (by simp)
                · have hx := ih children ctx outDir (joinRel rel name) src dst c
                  rw [hch] at hx
                  exact hx h0
              | none =>
                cases hes : walkList f ctx outDir rel es with
                | mk ops2 err2 =>
                  rw [hes] at hmem
                  have hmem2 : Op.writeFile src dst c ∈
                      Op.mkdirAll (joinOut outDir (renderTemplate (joinRel rel name) ctx)) ::
                        (cops ++ ops2) := hmem
                  rw [List.mem_cons, List.mem_append] at hmem2
                  rcases hmem2 with h0 | h0 | h0
                  · exact absurd h0 (by simp)
                  · have hx := ih children ctx outDir (joinRel rel name) src dst c
                    rw [hch] at hx
                    exact hx h0
                  · have hx := ih es ctx outDir rel src dst c
                    rw [hes] at hx
                    exact hx h0
        | file name content =>
          by_cases hcfg : name = ("cookiecutter.json")
          · subst hcfg
            rw [walkList_cons_config] at hmem
            exact ih es ctx outDir rel src dst c hmem
          · rw [walkList_cons_file _ _ _ _ _ _ _ hcfg] at hmem
            cases hpf : processFile content
                (joinOut outDir (renderTemplate (joinRel rel name) ctx)) ctx with
            | error e2 =>
              rw [hpf] at hmem
              simp at hmem
            | ok pr =>
              cases pr with
              | mk dst2 rendered =>
                rw [hpf] at hmem
                cases hes : walkList f ctx outDir rel es with
                | mk ops2 err2 =>
                  rw [hes] at hmem
                  have hmem2 : Op.writeFile src dst c ∈
                      Op.writeFile name dst2 rendered :: ops2 := hmem
                  rw [List.mem_cons] at hmem2
                  rcases hmem2 with h0 | h0
                  · injection h0 with hsrc hrest
                    subst hsrc
                    exact hcfg
                  · have hx := ih es ctx outDir rel src dst c
                    rw [hes] at hx
                    exact hx h0

/-- Witness for C4 (amended): a concrete write has a source name different
from the configuration basename, and a concrete .git directory contributes
nothing. -/
theorem c4_exclusions_amended_witness :
    ¬((("a") : String) = ("cookiecutter.json")) ∧
      walkList (1+1) [] ("out") (".")
          [Entry.dir (".git") [Entry.file ("x") ("y")]] =
        walkList 1 [] ("out") (".") [] :=
  ⟨c4_exclusions_amended.2 2 [Entry.file ("a") ("x")] [] ("out") (".")
      ("a") ("out/a") ("x") (by decide),
    c4_exclusions_amended.1 1 [] ("out") (".") [Entry.file ("x") ("y")] []⟩

/-! ### Path and covered-writes lemmas for the directory-before-file claim -/

theorem string_append_assoc (a b c : String) : (a ++ b) ++ c = a ++ (b ++ c) := by
  cases a
  cases b
  cases c
  exact congrArg String.mk (List.append_assoc _ _ _)

theorem dropWhile_append_all (p : Char → Bool) (l1 l2 : List Char)
    (h : l1.all p = true) : (l1 ++ l2).dropWhile p = l2.dropWhile p := by
  induction l1 with
  | nil => rfl
  | cons c t ih =>
    simp only [List.all_cons, Bool.and_eq_true] at h
    rw [List.cons_append, List.dropWhile_cons, if_pos h.1]
    exact ih h.2

theorem mem_slash_append (a b : String) : '/' ∈ (a ++ ("/") ++ b).data := by
  rw [string_data_append, string_data_append]
  have hslash : (("/") : String).data = ['/'] := rfl
  rw [hslash]
  simp

theorem append_slash_ne_dot (a b : String) : ¬(a ++ ("/") ++ b = (".")) := by
  intro h
  have hm := mem_slash_append a b
  rw [h] at hm
  exact absurd hm (by decide)

theorem append_slash_ne_empty (a b : String) : ¬(a ++ ("/") ++ b = ("")) := by
  intro h
  have hm := mem_slash_append a b
  rw [h] at hm
  exact absurd hm (by decide)

theorem parentDir_append (x n : String)
    (h : n.data.all (fun c => !(c = '/')) = true) :
    parentDir (x ++ ("/") ++ n) = x := by
  have hall : (n.data.reverse).all (fun c => (c ≠ '/' : Bool)) = true := by
    rw [List.all_reverse]
    rw [List.all_eq_true] at h ⊢
    intro c hc
    have hx := h c hc
    simpa using hx
  have hscrut : ((x ++ ("/") ++ n).data.reverse).dropWhile (fun c => (c ≠ '/' : Bool)) =
      '/' :: x.data.reverse := by
    rw [string_data_append, string_data_append]
    have hslash : (("/") : String).data = ['/'] := rfl
    rw [hslash]
    rw [List.reverse_append, List.reverse_append]
    simp only [List.reverse_cons, List.reverse_nil, List.nil_append, List.singleton_append]
    rw [dropWhile_append_all _ _ _ hall]
    rw [List.dropWhile_cons, if_neg (by simp)]
  rw [parentDir, hscrut]
  show String.mk (x.data.reverse.reverse) = x
  rw [List.reverse_reverse]

theorem cleanName_parts (n : String) (h : cleanName n = true) :
    noLB n = true ∧ n.data.all (fun c => !(c = '/')) = true ∧
      ¬(n = ("")) ∧ ¬(n = (".")) := by
  rw [cleanName] at h
  simp only [Bool.and_eq_true] at h
  obtain ⟨⟨hall, hne⟩, hnd⟩ := h
  rw [List.all_eq_true] at hall
  refine ⟨?_, ?_, by simpa using hne, by simpa using hnd⟩
  · rw [noLB, List.all_eq_true]
    intro c hc
    have hx := hall c hc
    simp only [Bool.and_eq_true] at hx
    exact hx.1
  · rw [List.all_eq_true]
    intro c hc
    have hx := hall c hc
    simp only [Bool.and_eq_true] at hx
    exact hx.2

theorem noLB_append (a b : String) (ha : noLB a = true) (hb : noLB b = true) :
    noLB (a ++ b) = true := by
  rw [noLB] at ha hb ⊢
  rw [string_data_append, List.all_append, ha, hb]
  rfl

theorem noLB_slash : noLB ("/") = true := rfl

theorem noLB_dot : noLB (".") = true := rfl

theorem joinRel_dot (name : String) : joinRel (".") name = name := by
  rw [joinRel, if_pos rfl]

theorem joinRel_not_dot (rel name : String) (h : ¬(rel = ("."))) :
    joinRel rel name = rel ++ ("/") ++ name := by
  rw [joinRel, if_neg h]

theorem noLB_joinRel (rel name : String) (hr : noLB rel = true) (hn : noLB name = true) :
    noLB (joinRel rel name) = true := by
  by_cases hd : rel = (".")
  · subst hd
    rw [joinRel_dot]
    exact hn
  · rw [joinRel_not_dot _ _ hd]
    exact noLB_append _ _ (noLB_append _ _ hr noLB_slash) hn

theorem joinRel_ne_empty (rel name : String) (hn : ¬(name = (""))) :
    ¬(joinRel rel name = ("")) := by
  by_cases hd : rel = (".")
  · subst hd
    rw [joinRel_dot]
    exact hn
  · rw [joinRel_not_dot _ _ hd]
    exact append_slash_ne_empty _ _

theorem joinOut_dot (outDir : String) : joinOut outDir (".") = outDir := by
  rw [joinOut, if_pos rfl]

theorem joinOut_plain (outDir r : String) (h1 : ¬(r = ("."))) (h2 : ¬(r = (""))) :
    joinOut outDir r = outDir ++ ("/") ++ r := by
  rw [joinOut, if_neg h1, if_neg h2]

theorem noLB_joinOut (outDir rel : String) (ho : noLB outDir = true)
    (hr : noLB rel = true) : noLB (joinOut outDir rel) = true := by
  by_cases h1 : rel = (".")
  · rw [h1, joinOut_dot]
    exact ho
  · by_cases h2 : rel = ("")
    · rw [joinOut, if_neg h1, if_pos h2]
      exact ho
    · rw [joinOut_plain _ _ h1 h2]
      exact noLB_append _ _ (noLB_append _ _ ho noLB_slash) hr

theorem joinOut_joinRel (outDir rel name : String) (hrelne : ¬(rel = ("")))
    (hname : cleanName name = true) :
    joinOut outDir (joinRel rel name) = (joinOut outDir rel) ++ ("/") ++ name := by
  obtain ⟨-, -, hnne, hnnd⟩ := cleanName_parts name hname
  by_cases hd : rel = (".")
  · subst hd
    rw [joinRel_dot, joinOut_dot, joinOut_plain _ _ hnnd hnne]
  · rw [joinRel_not_dot _ _ hd,
      joinOut_plain _ _ (append_slash_ne_dot _ _) (append_slash_ne_empty _ _),
      joinOut_plain _ _ hd hrelne]
    simp [string_append_assoc]

theorem mem_createdAfter :
    ∀ (l : List Op) (c : List String) (x : String), x ∈ c → x ∈ createdAfter c l := by
  intro l
  induction l with
  | nil => intro c x h; exact h
  | cons op t ih =>
    intro c x h
    cases op with
    | mkdirAll p => exact ih (p :: c) x (List.mem_cons_of_mem _ h)
    | writeFile s d cc => exact ih c x h

theorem writesCovered_append :
    ∀ (l1 l2 : List Op) (c : List String),
      writesCovered c (l1 ++ l2) =
        (writesCovered c l1 && writesCovered (createdAfter c l1) l2) := by
  intro l1
  induction l1 with
  | nil => intro l2 c; simp [writesCovered, createdAfter]
  | cons op t ih =>
    intro l2 c
    cases op with
    | mkdirAll p =>
      show writesCovered (p :: c) (t ++ l2) =
        (writesCovered (p :: c) t && writesCovered (createdAfter (p :: c) t) l2)
      exact ih l2 (p :: c)
    | writeFile s d cc =>
      show ((if parentDir d ∈ c then true else false) && writesCovered c (t ++ l2)) =
        (((if parentDir d ∈ c then true else false) && writesCovered c t) &&
          writesCovered (createdAfter c t) l2)
      rw [ih l2 c, Bool.and_assoc]

/-- The covered-writes invariant of the walk: on a tree whose entry names
are plain path segments (no action-delimiter material, no separators), if
the output directory for the current relative path has already been
created, then every write the walk performs goes into a directory created
earlier. -/
theorem walk_covered :
    ∀ (fuel : Nat) (entries : List Entry) (ctx : Ctx) (outDir rel : String)
      (created : List String),
      cleanListB fuel entries = true →
      noLB outDir = true →
      noLB rel = true →
      ¬(rel = ("")) →
      (joinOut outDir rel) ∈ created →
      writesCovered created (walkList fuel ctx outDir rel entries).1 = true := by
  intro fuel
  induction fuel with
  | zero =>
    intro entries ctx outDir rel created hcl ho hr hrne hmem
    cases entries with
    | nil => rfl
    | cons e es => rfl
  | succ f ih =>
    intro entries ctx outDir rel created hcl ho hr hrne hmem
    cases entries with
    | nil => rfl
    | cons e0 es =>
      cases e0 with
      | dir name children =>
        have hcl2 : (cleanName name && cleanListB f children && cleanListB f es) = true := hcl
        simp only [Bool.and_eq_true] at hcl2
        obtain ⟨⟨hn, hc⟩, hesb⟩ := hcl2
        by_cases hg : name = (".git")
        · subst hg
          rw [walkList_cons_git]
          exact ih es ctx outDir rel created hesb ho hr hrne hmem
        · rw [walkList_cons_dir _ _ _ _ _ _ _ hg]
          obtain ⟨hnlb, hnsl, hnne, hnnd⟩ := cleanName_parts name hn
          have hmyrel_lb : noLB (joinRel rel name) = true := noLB_joinRel _ _ hr hnlb
          have hrender : renderTemplate (joinRel rel name) ctx = joinRel rel name :=
            renderTemplate_id_of_noLB _ ctx hmyrel_lb
          rw [hrender]
          have hmyrel_ne : ¬(joinRel rel name = ("")) := joinRel_ne_empty _ _ hnne
          cases hch : walkList f ctx outDir (joinRel rel name) children with
          | mk cops cerr =>
            have hcops : writesCovered ((joinOut outDir (joinRel rel name)) :: created)
                cops = true := by
              have hx := ih children ctx outDir (joinRel rel name)
                ((joinOut outDir (joinRel rel name)) :: created) hc ho hmyrel_lb hmyrel_ne
                (List.mem_cons_self _ _)
              rw [hch] at hx
              exact hx
            cases cerr with
            | some e2 => exact hcops
            | none =>
              cases hes2 : walkList f ctx outDir rel es with
              | mk ops2 err2 =>
                have hstep : writesCovered created
                    (Op.mkdirAll (joinOut outDir (joinRel rel name)) :: (cops ++ ops2)) =
                    writesCovered ((joinOut outDir (joinRel rel name)) :: created)
                      (cops ++ ops2) := rfl
                show writesCovered created
                  (Op.mkdirAll (joinOut outDir (joinRel rel name)) :: (cops ++ ops2)) = true
                rw [hstep, writesCovered_append, Bool.and_eq_true]
                refine ⟨hcops, ?_⟩
                have hmem2 : (joinOut outDir rel) ∈
                    createdAfter ((joinOut outDir (joinRel rel name)) :: created) cops :=
                  mem_createdAfter _ _ _ (List.mem_cons_of_mem _ hmem)
                have hx := ih es ctx outDir rel _ hesb ho hr hrne hmem2
                rw [hes2] at hx
                exact hx
      | file name content =>
        have hcl2 : (cleanName name && cleanListB f es) = true := hcl
        simp only [Bool.and_eq_true] at hcl2
        obtain ⟨hn, hesb⟩ := hcl2
        by_cases hcfg : name = ("cookiecutter.json")
        · subst hcfg
          rw [walkList_cons_config]
          exact ih es ctx outDir rel created hesb ho hr hrne hmem
        · rw [walkList_cons_file _ _ _ _ _ _ _ hcfg]
          obtain ⟨hnlb, hnsl, hnne, hnnd⟩ := cleanName_parts name hn
          have hmyrel_lb : noLB (joinRel rel name) = true := noLB_joinRel _ _ hr hnlb
          have hrender : renderTemplate (joinRel rel name) ctx = joinRel rel name :=
            renderTemplate_id_of_noLB _ ctx hmyrel_lb
          rw [hrender]
          cases hsr : strictRender content ctx with
          | error e2 =>
            rw [processFile_of_error _ _ _ _ hsr]
            rfl
          | ok r =>
            rw [processFile_of_ok _ _ _ _ hsr]
            have hjoin : joinOut outDir (joinRel rel name) =
                (joinOut outDir rel) ++ ("/") ++ name :=
              joinOut_joinRel outDir rel name hrne hn
            rw [hjoin]
            have hout2 : noLB ((joinOut outDir rel) ++ ("/") ++ name) = true :=
              noLB_append _ _ (noLB_append _ _ (noLB_joinOut _ _ ho hr) noLB_slash) hnlb
            have hrender2 : renderTemplate ((joinOut outDir rel) ++ ("/") ++ name) ctx =
                (joinOut outDir rel) ++ ("/") ++ name :=
              renderTemplate_id_of_noLB _ ctx hout2
            rw [hrender2]
            cases hes2 : walkList f ctx outDir rel es with
            | mk ops2 err2 =>
              show ((if parentDir ((joinOut outDir rel) ++ ("/") ++ name) ∈ created
                  then true else false) && writesCovered created ops2) = true
              rw [parentDir_append _ _ hnsl, if_pos hmem]
              simp only [Bool.true_and]
              have hx := ih es ctx outDir rel created hesb ho hr hrne hmem
              rw [hes2] at hx
              exact hx

/-- C6 (amended): the output root directory is created before the walk
begins — the first operation of generateFiles is its creation, even for an
empty tree — and on trees whose entry names are plain path segments (no
action-delimiter material and no separators, so path rendering leaves them
in place), every file write goes to a destination whose containing
directory was created earlier: directories are visited and created
top-down before the files beneath them. The restriction on names is forced
by the counterexample: a rendered file name can introduce new separators,
and then the write's containing directory is never created. -/
theorem c6_root_first_and_dirs_before_files (fuel : Nat) (ctx : Ctx)
    (outDir rname : String) (children : List Entry)
    (hout : noLB outDir = true)
    (hclean : cleanListB fuel children = true) :
    ((generateFiles fuel ctx outDir (Entry.dir rname children)).1.head? =
      some (Op.mkdirAll outDir)) ∧
      writesCovered []
        ((generateFiles fuel ctx outDir (Entry.dir rname children)).1) = true := by
  constructor
  · rfl
  · by_cases hg : rname = (".git")
    · subst hg
      simp [generateFiles, writesCovered]
    · simp only [generateFiles]
      rw [if_neg hg]
      cases hch : walkList fuel ctx outDir (".") children with
      | mk cops cerr =>
        have hrd : renderTemplate (".") ctx = (".") :=
          renderTemplate_id_of_noLB _ ctx noLB_dot
        rw [hrd, joinOut_dot]
        show writesCovered (outDir :: (outDir :: [])) cops = true
        have hx := walk_covered fuel children ctx outDir (".") (outDir :: (outDir :: []))
          hclean hout noLB_dot (by decide)
          (by rw [joinOut_dot]; exact List.mem_cons_self _ _)
        rw [hch] at hx
        exact hx

/-- Witness for C6 (amended) on a concrete clean tree with a nested
directory. -/
theorem c6_root_first_and_dirs_before_files_witness :
    ((generateFiles 5 [] ("out")
        (Entry.dir ("tpl")
          [Entry.file ("a") ("x"), Entry.dir ("d") [Entry.file ("b") ("y")]])).1.head? =
      some (Op.mkdirAll ("out"))) ∧
      writesCovered []
        ((generateFiles 5 [] ("out")
          (Entry.dir ("tpl")
            [Entry.file ("a") ("x"),
             Entry.dir ("d") [Entry.file ("b") ("y")]])).1) = true :=
  c6_root_first_and_dirs_before_files 5 [] ("out") ("tpl")
    [Entry.file ("a") ("x"), Entry.dir ("d") [Entry.file ("b") ("y")]]
    (by decide) (by decide)

/-- C6 counterexample: when a rendered file name introduces a separator,
the walk writes the file at the rendered path without ever creating its
containing directory: the only write goes beneath a directory for which no
creation operation exists anywhere in the run (the real WriteFile call
would fail; the claim that every file's containing directory is created
before the write is false of the code). -/
theorem c6_dirs_before_files_counterexample :
    generateFiles 5 [(("cookiecutter"), GoValue.obj [(("x"), GoValue.str ("sub/inner"))])]
        ("out")
        (Entry.dir ("tpl") [Entry.file ("f\x7b\x7b.cookiecutter.x\x7d\x7d") ("hi")]) =
      ([Op.mkdirAll ("out"), Op.mkdirAll ("out"),
        Op.writeFile ("f\x7b\x7b.cookiecutter.x\x7d\x7d") ("out/fsub/inner") ("hi")],
        none) ∧
      parentDir ("out/fsub/inner") = ("out/fsub") ∧
      Op.mkdirAll ("out/fsub") ∉
        (generateFiles 5 [(("cookiecutter"), GoValue.obj [(("x"), GoValue.str ("sub/inner"))])]
          ("out")
          (Entry.dir ("tpl")
            [Entry.file ("f\x7b\x7b.cookiecutter.x\x7d\x7d") ("hi")])).1 ∧
      writesCovered []
        ((generateFiles 5
          [(("cookiecutter"), GoValue.obj [(("x"), GoValue.str ("sub/inner"))])]
          ("out")
          (Entry.dir ("tpl")
            [Entry.file ("f\x7b\x7b.cookiecutter.x\x7d\x7d") ("hi")])).1) = false := by
  refine ⟨rfl, rfl, by decide, rfl⟩

end GC
